import Mathlib

/-!
Verification of the PSM physics core against its specification.

The definitions below are shallow embeddings of the Python source files
`psm_app/pendulum.py`, `psm_app/double_pendulum.py`, `psm_app/collisions.py`
and `psm_app/life.py`.  Machine floats are modelled by real numbers; NumPy
arrays filled by the in-place loops are modelled by `List.ofFn` over the
recursive per-step state functions, which compute exactly the same
recurrences as the loops.
-/

namespace PSM

/-! ## Simple pendulum (`pendulum.py`, `simulate_pendulum`;
    the identical loop also appears as `simulate_simple` in
    `double_pendulum.py`). -/

/-- One iteration of the loop body of `simulate_pendulum`
(`pendulum.py` lines 24-27), acting on the pair `(theta, omega)`:
`omega[i] = omega[i-1] - (g/L)*sin(theta[i-1])*dt - gamma*omega[i-1]*dt`,
`theta[i] = theta[i-1] + omega[i]*dt`. -/
noncomputable def pendStep (g L gamma dt : ℝ) : ℝ × ℝ → ℝ × ℝ
  | (theta, omega) =>
    let omegaNew := omega - (g / L) * Real.sin theta * dt - gamma * omega * dt
    (theta + omegaNew * dt, omegaNew)

/-- State of the simple-pendulum loop after `i` iterations, starting from
`theta[0] = theta0`, `omega[0] = omega0` (`pendulum.py` lines 21-27). -/
noncomputable def pendState (theta0 omega0 g L gamma dt : ℝ) : ℕ → ℝ × ℝ
  | 0 => (theta0, omega0)
  | i + 1 => pendStep g L gamma dt (pendState theta0 omega0 g L gamma dt i)

/-- Number of stored steps, `n = int(t_max / dt)` (`pendulum.py` line 15):
Python `int` truncation of a positive quotient is the floor. -/
noncomputable def n_steps (dt t_max : ℝ) : ℕ := ⌊t_max / dt⌋₊

/-- Accumulated time array entry, `time[i] = time[i-1] + dt` from
`time[0] = 0` (`pendulum.py` lines 19 and 27). -/
noncomputable def timeVal (dt : ℝ) : ℕ → ℝ
  | 0 => 0
  | i + 1 => timeVal dt i + dt

/-- Embedding of `simulate_pendulum(theta0, omega0, g, L, gamma, dt, t_max)`
(`pendulum.py` lines 10-29): returns the `time`, `theta` and `omega` arrays,
each of length `n = int(t_max/dt)`. -/
noncomputable def simulate_pendulum (theta0 omega0 g L gamma dt t_max : ℝ) :
    List ℝ × List ℝ × List ℝ :=
  (List.ofFn (fun i : Fin (n_steps dt t_max) => timeVal dt i),
   List.ofFn (fun i : Fin (n_steps dt t_max) =>
     (pendState theta0 omega0 g L gamma dt i).1),
   List.ofFn (fun i : Fin (n_steps dt t_max) =>
     (pendState theta0 omega0 g L gamma dt i).2))

/-- Embedding of `simulate_simple(theta0, omega0, g, L, dt, t_max, gamma)`
(`double_pendulum.py` lines 9-25): the same loop as `simulate_pendulum`,
returning the Cartesian arrays `x = L*sin(theta)`, `y = -L*cos(theta)`. -/
noncomputable def simulate_simple (theta0 omega0 g L dt t_max gamma : ℝ) :
    List ℝ × List ℝ :=
  (List.ofFn (fun i : Fin (n_steps dt t_max) =>
     L * Real.sin (pendState theta0 omega0 g L gamma dt i).1),
   List.ofFn (fun i : Fin (n_steps dt t_max) =>
     -L * Real.cos (pendState theta0 omega0 g L gamma dt i).1))

/-- Mechanical energy of a simple-pendulum state, as defined by the spec:
`E = 0.5*omega^2 - (g/L)*cos(theta)`. -/
noncomputable def energy (g L : ℝ) (s : ℝ × ℝ) : ℝ :=
  0.5 * s.2 ^ 2 - (g / L) * Real.cos s.1

/-- Reading entry `i` of an array built from a per-step state function. -/
theorem getD_ofFn {n : ℕ} (f : Fin n → ℝ) (i : ℕ) (h : i < n) (d : ℝ) :
    (List.ofFn f).getD i d = f ⟨i, h⟩ := by
  rw [List.getD_eq_getElem _ _ (by simpa using h)]
  simp

/-- Claim C2: in the simple-pendulum integrator, for every step `i` in
`1..n-1`, `omega[i]` is computed first as
`omega[i-1] - (g/L)*sin(theta[i-1])*dt - gamma*omega[i-1]*dt`, and `theta[i]`
is computed from the already updated `omega[i]`:
`theta[i] = theta[i-1] + omega[i]*dt`, not from the old `omega[i-1]`. -/
theorem pendulum_semi_implicit_update
    (theta0 omega0 g L gamma dt t_max : ℝ) (i : ℕ)
    (h1 : 1 ≤ i) (h2 : i < n_steps dt t_max) :
    (simulate_pendulum theta0 omega0 g L gamma dt t_max).2.2.getD i 0 =
      (simulate_pendulum theta0 omega0 g L gamma dt t_max).2.2.getD (i - 1) 0
        - (g / L) * Real.sin
            ((simulate_pendulum theta0 omega0 g L gamma dt t_max).2.1.getD (i - 1) 0) * dt
        - gamma * (simulate_pendulum theta0 omega0 g L gamma dt t_max).2.2.getD (i - 1) 0 * dt ∧
    (simulate_pendulum theta0 omega0 g L gamma dt t_max).2.1.getD i 0 =
      (simulate_pendulum theta0 omega0 g L gamma dt t_max).2.1.getD (i - 1) 0
        + (simulate_pendulum theta0 omega0 g L gamma dt t_max).2.2.getD i 0 * dt := by
  obtain ⟨j, rfl⟩ : ∃ j, i = j + 1 := ⟨i - 1, (Nat.succ_pred_eq_of_pos h1).symm⟩
  have hj : j < n_steps dt t_max := Nat.lt_of_succ_lt h2
  simp only [simulate_pendulum, Nat.add_sub_cancel]
  rw [getD_ofFn _ _ h2, getD_ofFn _ _ h2, getD_ofFn _ _ hj, getD_ofFn _ _ hj]
  rcases hps : pendState theta0 omega0 g L gamma dt j with ⟨th, om⟩
  simp [pendState, hps, pendStep]

/-- Claim C2 witness: the recurrence at step 1 of a concrete run. -/
theorem pendulum_semi_implicit_update_witness :
    (simulate_pendulum 1 0 9 1 0 1 3).2.2.getD 1 0 =
      (simulate_pendulum 1 0 9 1 0 1 3).2.2.getD 0 0
        - (9 / 1) * Real.sin ((simulate_pendulum 1 0 9 1 0 1 3).2.1.getD 0 0) * 1
        - 0 * (simulate_pendulum 1 0 9 1 0 1 3).2.2.getD 0 0 * 1 ∧
    (simulate_pendulum 1 0 9 1 0 1 3).2.1.getD 1 0 =
      (simulate_pendulum 1 0 9 1 0 1 3).2.1.getD 0 0
        + (simulate_pendulum 1 0 9 1 0 1 3).2.2.getD 1 0 * 1 := by
  have h := pendulum_semi_implicit_update 1 0 9 1 0 1 3 1 le_rfl
    (by norm_num [n_steps])
  simpa using h

/-- Claim C3: for valid parameters (`L > 0`, `dt > 0`, `t_max > 0` with
`floor(t_max/dt) ≥ 1`), the simple-pendulum integrator returns `theta` and
`omega` sequences of length exactly `floor(t_max/dt)`, with
`theta[0] = theta0` and `omega[0] = omega0`. -/
theorem pendulum_trajectory_length_init
    (theta0 omega0 g L gamma dt t_max : ℝ)
    (hL : 0 < L) (hdt : 0 < dt) (ht : 0 < t_max)
    (hn : 1 ≤ n_steps dt t_max) :
    (simulate_pendulum theta0 omega0 g L gamma dt t_max).2.1.length =
      n_steps dt t_max ∧
    (simulate_pendulum theta0 omega0 g L gamma dt t_max).2.2.length =
      n_steps dt t_max ∧
    (simulate_pendulum theta0 omega0 g L gamma dt t_max).2.1.getD 0 0 = theta0 ∧
    (simulate_pendulum theta0 omega0 g L gamma dt t_max).2.2.getD 0 0 = omega0 := by
  refine ⟨by simp [simulate_pendulum], by simp [simulate_pendulum], ?_, ?_⟩ <;>
    · simp only [simulate_pendulum]
      rw [getD_ofFn _ _ hn]
      simp [pendState]

/-- Claim C3 witness: a concrete valid run with `floor(3/1) = 3` steps. -/
theorem pendulum_trajectory_length_init_witness :
    (simulate_pendulum 1 2 9 1 0 1 3).2.1.length = n_steps 1 3 ∧
    (simulate_pendulum 1 2 9 1 0 1 3).2.2.length = n_steps 1 3 ∧
    (simulate_pendulum 1 2 9 1 0 1 3).2.1.getD 0 0 = 1 ∧
    (simulate_pendulum 1 2 9 1 0 1 3).2.2.getD 0 0 = 2 :=
  pendulum_trajectory_length_init 1 2 9 1 0 1 3 (by norm_num) (by norm_num)
    (by norm_num) (by norm_num [n_steps])

/-- Claim C9 counterexample: the claim asserts `E[i+1] < E[i]` for every
`i ≥ 1` on every run with `gamma > 0`.  On the run
`theta0 = 0, omega0 = 0, g = 1, L = 1, gamma = 1, dt = 1, t_max = 5`
(so `n = 5` and the indices 1 and 2 are inside the trajectory), the state is
the rest state forever and the energy is constant, so `E[2] < E[1]` fails. -/
theorem energy_not_strictly_decreasing_at_rest :
    ¬ (0.5 * ((simulate_pendulum 0 0 1 1 1 1 5).2.2.getD 2 0) ^ 2
         - (1 / 1) * Real.cos ((simulate_pendulum 0 0 1 1 1 1 5).2.1.getD 2 0)
       < 0.5 * ((simulate_pendulum 0 0 1 1 1 1 5).2.2.getD 1 0) ^ 2
         - (1 / 1) * Real.cos ((simulate_pendulum 0 0 1 1 1 1 5).2.1.getD 1 0)) := by
  have h1 : (1 : ℕ) < n_steps 1 5 := by norm_num [n_steps]
  have h2 : (2 : ℕ) < n_steps 1 5 := by norm_num [n_steps]
  simp only [simulate_pendulum]
  rw [getD_ofFn _ _ h2, getD_ofFn _ _ h2, getD_ofFn _ _ h1, getD_ofFn _ _ h1]
  norm_num [pendState, pendStep]

/-- Claim C9, amended: with `gamma > 0` the energy
`E = 0.5*omega^2 - (g/L)*cos(theta)` along the computed trajectory is not
strictly decreasing in general; whenever the state at step `i` is a fixed
point of the update (`omega[i] = 0` and `sin(theta[i]) = 0`, e.g. the rest
state) the energy is exactly constant: `E[i+1] = E[i]`. -/
theorem energy_constant_at_fixed_point
    (theta0 omega0 g L gamma dt : ℝ) (hg : 0 < gamma) (i : ℕ)
    (hw : (pendState theta0 omega0 g L gamma dt i).2 = 0)
    (hs : Real.sin (pendState theta0 omega0 g L gamma dt i).1 = 0) :
    energy g L (pendState theta0 omega0 g L gamma dt (i + 1)) =
      energy g L (pendState theta0 omega0 g L gamma dt i) := by
  rcases hps : pendState theta0 omega0 g L gamma dt i with ⟨th, om⟩
  rw [hps] at hw hs
  simp only at hw hs
  subst hw
  simp [pendState, hps, pendStep, energy, hs]

/-- Claim C9 amended witness: the rest state of a damped run has constant
energy across step 0 to 1. -/
theorem energy_constant_at_fixed_point_witness :
    energy 1 1 (pendState 0 0 1 1 1 1 1) = energy 1 1 (pendState 0 0 1 1 1 1 0) :=
  energy_constant_at_fixed_point 0 0 1 1 1 1 (by norm_num) 0 rfl
    (by simp [pendState])

/-! ## Double pendulum (`double_pendulum.py`, `simulate_double`). -/

/-- One iteration of the loop body of `simulate_double`
(`double_pendulum.py` lines 43-76), acting on the state
`(theta1, theta2, omega1, omega2)`. -/
noncomputable def doubleStep (g L1 L2 m1 m2 dt gamma : ℝ) :
    ℝ × ℝ × ℝ × ℝ → ℝ × ℝ × ℝ × ℝ
  | (t1_old, t2_old, w1_old, w2_old) =>
    let delta := t2_old - t1_old
    let sin_delta := Real.sin delta
    let cos_delta := Real.cos delta
    let den1 := (m1 + m2) * L1 - m2 * L1 * cos_delta ^ 2
    let num1 := m2 * L1 * w1_old ^ 2 * sin_delta * cos_delta
        + m2 * g * Real.sin t2_old * cos_delta
        + m2 * L2 * w2_old ^ 2 * sin_delta
        - (m1 + m2) * g * Real.sin t1_old
    let alpha1 := num1 / den1 - gamma * w1_old
    let den2 := (L2 / L1) * den1
    let num2 := -m2 * L2 * w2_old ^ 2 * sin_delta * cos_delta
        + (m1 + m2) * (g * Real.sin t1_old * cos_delta
        - L1 * w1_old ^ 2 * sin_delta
        - g * Real.sin t2_old)
    let alpha2 := num2 / den2 - gamma * w2_old
    let w1New := w1_old + alpha1 * dt
    let w2New := w2_old + alpha2 * dt
    (t1_old + w1New * dt, t2_old + w2New * dt, w1New, w2New)

/-- State of the double-pendulum loop after `i` iterations, starting from
`theta1[0] = theta1_init`, `theta2[0] = theta2_init`,
`omega1[0] = 0`, `omega2[0] = 0` (`double_pendulum.py` lines 40-41). -/
noncomputable def doubleState (theta1_init theta2_init g L1 L2 m1 m2 dt gamma : ℝ) :
    ℕ → ℝ × ℝ × ℝ × ℝ
  | 0 => (theta1_init, theta2_init, 0, 0)
  | i + 1 => doubleStep g L1 L2 m1 m2 dt gamma
      (doubleState theta1_init theta2_init g L1 L2 m1 m2 dt gamma i)

/-- Embedding of `simulate_double(theta1_init, theta2_init, g, L1, L2, m1,
m2, dt, t_max, gamma)` (`double_pendulum.py` lines 30-84): the Cartesian
arrays `x1 = L1*sin(theta1)`, `y1 = -L1*cos(theta1)`,
`x2 = x1 + L2*sin(theta2)`, `y2 = y1 - L2*cos(theta2)`. -/
noncomputable def simulate_double
    (theta1_init theta2_init g L1 L2 m1 m2 dt t_max gamma : ℝ) :
    List ℝ × List ℝ × List ℝ × List ℝ :=
  (List.ofFn (fun i : Fin (n_steps dt t_max) =>
     L1 * Real.sin (doubleState theta1_init theta2_init g L1 L2 m1 m2 dt gamma i).1),
   List.ofFn (fun i : Fin (n_steps dt t_max) =>
     -L1 * Real.cos (doubleState theta1_init theta2_init g L1 L2 m1 m2 dt gamma i).1),
   List.ofFn (fun i : Fin (n_steps dt t_max) =>
     L1 * Real.sin (doubleState theta1_init theta2_init g L1 L2 m1 m2 dt gamma i).1
       + L2 * Real.sin (doubleState theta1_init theta2_init g L1 L2 m1 m2 dt gamma i).2.1),
   List.ofFn (fun i : Fin (n_steps dt t_max) =>
     -L1 * Real.cos (doubleState theta1_init theta2_init g L1 L2 m1 m2 dt gamma i).1
       - L2 * Real.cos (doubleState theta1_init theta2_init g L1 L2 m1 m2 dt gamma i).2.1))

/-- Modelled from the spec, for refinement comparison only: the closed-form
per-step update of §4.2 of the specification, written from the spec's
formulas `den1`, `a1`, `den2`, `a2`, `w1'`, `w2'`, `t1'`, `t2'`. -/
noncomputable def specDoubleUpdate (g L1 L2 m1 m2 dt gamma : ℝ) :
    ℝ × ℝ × ℝ × ℝ → ℝ × ℝ × ℝ × ℝ
  | (t1, t2, w1, w2) =>
    let delta := t2 - t1
    let den1 := (m1 + m2) * L1 - m2 * L1 * Real.cos delta ^ 2
    let a1 := (m2 * L1 * w1 ^ 2 * Real.sin delta * Real.cos delta
        + m2 * g * Real.sin t2 * Real.cos delta
        + m2 * L2 * w2 ^ 2 * Real.sin delta
        - (m1 + m2) * g * Real.sin t1) / den1 - gamma * w1
    let den2 := (L2 / L1) * den1
    let a2 := (-m2 * L2 * w2 ^ 2 * Real.sin delta * Real.cos delta
        + (m1 + m2) * (g * Real.sin t1 * Real.cos delta
        - L1 * w1 ^ 2 * Real.sin delta
        - g * Real.sin t2)) / den2 - gamma * w2
    let w1' := w1 + a1 * dt
    let w2' := w2 + a2 * dt
    (t1 + w1' * dt, t2 + w2' * dt, w1', w2')

/-- Claim C1: for every step `i` in `1..n_steps-1` of the double-pendulum
integrator, the new state `(t1', t2', w1', w2')` equals exactly the spec's
closed-form update (`den1`, `alpha1`, `den2`, `alpha2`, with the linear-drag
term `-gamma*omega` added to each acceleration) applied to the previous
state. -/
theorem double_step_matches_spec
    (theta1_init theta2_init g L1 L2 m1 m2 dt t_max gamma : ℝ) (i : ℕ)
    (h1 : 1 ≤ i) (h2 : i ≤ n_steps dt t_max - 1) :
    doubleState theta1_init theta2_init g L1 L2 m1 m2 dt gamma i =
      specDoubleUpdate g L1 L2 m1 m2 dt gamma
        (doubleState theta1_init theta2_init g L1 L2 m1 m2 dt gamma (i - 1)) := by
  obtain ⟨j, rfl⟩ : ∃ j, i = j + 1 := ⟨i - 1, (Nat.succ_pred_eq_of_pos h1).symm⟩
  simp only [Nat.add_sub_cancel, doubleState]
  rcases doubleState theta1_init theta2_init g L1 L2 m1 m2 dt gamma j with
    ⟨t1, t2, w1, w2⟩
  simp only [doubleStep, specDoubleUpdate]

/-- Claim C1 witness: the update identity at step 1 of a concrete run with
`n_steps = 3`. -/
theorem double_step_matches_spec_witness :
    doubleState 1 2 9 1 1 1 1 1 0 1 =
      specDoubleUpdate 9 1 1 1 1 1 0 (doubleState 1 2 9 1 1 1 1 1 0 0) :=
  double_step_matches_spec 1 2 9 1 1 1 1 1 3 0 1 le_rfl
    (by norm_num [n_steps])

/-! ## Collision resolver (`collisions.py`, `compute_collision`).
    2D NumPy vectors are modelled as pairs of reals, with the componentwise
    operations the source uses spelled out. -/

/-- Componentwise vector addition, `v + w` on NumPy arrays. -/
noncomputable def vadd2 (v w : ℝ × ℝ) : ℝ × ℝ := (v.1 + w.1, v.2 + w.2)

/-- Componentwise vector subtraction, `v - w` on NumPy arrays. -/
noncomputable def vsub2 (v w : ℝ × ℝ) : ℝ × ℝ := (v.1 - w.1, v.2 - w.2)

/-- Scalar times vector, `a * v` on NumPy arrays. -/
noncomputable def smul2 (a : ℝ) (v : ℝ × ℝ) : ℝ × ℝ := (a * v.1, a * v.2)

/-- Vector divided by scalar, `v / a` on NumPy arrays. -/
noncomputable def sdiv2 (v : ℝ × ℝ) (a : ℝ) : ℝ × ℝ := (v.1 / a, v.2 / a)

/-- Dot product, `np.dot(v, w)` for 2-vectors. -/
noncomputable def dot2 (v w : ℝ × ℝ) : ℝ := v.1 * w.1 + v.2 * w.2

/-- Euclidean norm, `np.linalg.norm(v)` for 2-vectors. -/
noncomputable def norm2 (v : ℝ × ℝ) : ℝ := Real.sqrt (v.1 ^ 2 + v.2 ^ 2)

/-- Embedding of `compute_collision(x1, x2, v1, v2, m1, m2, r1, r2,
restitution)` (`collisions.py` lines 8-43).  Returns
`(v1_new, v2_new, has_collided)`. -/
noncomputable def compute_collision (x1 x2 v1 v2 : ℝ × ℝ)
    (m1 m2 r1 r2 restitution : ℝ) : (ℝ × ℝ) × (ℝ × ℝ) × Bool :=
  let dist_vec := vsub2 x1 x2
  let dist := norm2 dist_vec
  if dist ≤ r1 + r2 then
    let n := sdiv2 dist_vec dist
    let v_rel := vsub2 v1 v2
    let vel_along_normal := dot2 v_rel n
    if vel_along_normal > 0 then (v1, v2, false)
    else
      let j := (-(1 + restitution) * vel_along_normal) / (1 / m1 + 1 / m2)
      let impulse := smul2 j n
      (vadd2 v1 (sdiv2 impulse m1), vsub2 v2 (sdiv2 impulse m2), true)
  else (v1, v2, false)

/-- Claim C4: with restitution 1, equal masses `m1 = m2 = m > 0`, a head-on
configuration `v1 = (2,0)`, `v2 = (-1,0)` and the two discs exactly touching
along the x-axis (`|p1 - p2| = r1 + r2 = 0.8`), the resolver returns
`v1' = (-1,0)` and `v2' = (2,0)`: the equal-mass elastic velocity swap. -/
theorem collision_elastic_swap (m : ℝ) (hm : 0 < m) :
    compute_collision (0, 0) (4 / 5, 0) (2, 0) (-1, 0) m m (2 / 5) (2 / 5) 1 =
      ((-1, 0), (2, 0), true) := by
  have hd : norm2 (vsub2 (0, 0) (4 / 5, 0)) = 4 / 5 := by
    rw [norm2, show (vsub2 ((0 : ℝ), (0 : ℝ)) (4 / 5, 0)).1 ^ 2
        + (vsub2 ((0 : ℝ), (0 : ℝ)) (4 / 5, 0)).2 ^ 2 = (4 / 5) ^ 2 by
      norm_num [vsub2]]
    exact Real.sqrt_sq (by norm_num)
  have hm' : m ≠ 0 := ne_of_gt hm
  simp only [compute_collision, hd]
  rw [if_pos (by norm_num : (4 / 5 : ℝ) ≤ 2 / 5 + 2 / 5)]
  rw [if_neg (by simp only [vsub2, sdiv2, dot2]; norm_num)]
  simp only [vsub2, sdiv2, dot2, smul2, vadd2, Prod.mk.injEq]
  norm_num
  constructor <;> · field_simp; ring

/-- Claim C4 witness: the swap at the concrete mass `m = 1`. -/
theorem collision_elastic_swap_witness :
    compute_collision (0, 0) (4 / 5, 0) (2, 0) (-1, 0) 1 1 (2 / 5) (2 / 5) 1 =
      ((-1, 0), (2, 0), true) :=
  collision_elastic_swap 1 (by norm_num)

/-- Expansion of the post-impulse relative velocity along an abstract
normal direction, used to settle the restitution-0 property. -/
theorem resolve_dot (u1 u2 w1 w2 n1 n2 m1 m2 j : ℝ) (hm1 : m1 ≠ 0) (hm2 : m2 ≠ 0) :
    (u1 + (j * n1) / m1 - (w1 - (j * n1) / m2)) * n1
      + (u2 + (j * n2) / m1 - (w2 - (j * n2) / m2)) * n2
      = (u1 - w1) * n1 + (u2 - w2) * n2
        + j * (1 / m1 + 1 / m2) * (n1 * n1 + n2 * n2) := by
  field_simp
  ring

/-- Claim C5: in every contact configuration where the resolver applies an
impulse (`|p1 - p2| ≤ r1 + r2`, `|p1 - p2| > 0`,
`vn = dot(v1 - v2, n) ≤ 0`) with restitution 0 and positive masses, the
returned velocities have post-impact relative velocity exactly 0 along the
normal: `dot(v1' - v2', n) = 0`. -/
theorem collision_inelastic_normal_rel_velocity_zero
    (x1 x2 v1 v2 : ℝ × ℝ) (m1 m2 r1 r2 : ℝ)
    (hc : norm2 (vsub2 x1 x2) ≤ r1 + r2)
    (h0 : 0 < norm2 (vsub2 x1 x2))
    (hvn : dot2 (vsub2 v1 v2) (sdiv2 (vsub2 x1 x2) (norm2 (vsub2 x1 x2))) ≤ 0)
    (hm1 : 0 < m1) (hm2 : 0 < m2) :
    dot2
      (vsub2 (compute_collision x1 x2 v1 v2 m1 m2 r1 r2 0).1
             (compute_collision x1 x2 v1 v2 m1 m2 r1 r2 0).2.1)
      (sdiv2 (vsub2 x1 x2) (norm2 (vsub2 x1 x2))) = 0 := by
  have hdist : norm2 (vsub2 x1 x2) ≠ 0 := ne_of_gt h0
  have hm1' : m1 ≠ 0 := ne_of_gt hm1
  have hm2' : m2 ≠ 0 := ne_of_gt hm2
  have hsum : 1 / m1 + 1 / m2 ≠ 0 := by positivity
  have hnn : dot2 (sdiv2 (vsub2 x1 x2) (norm2 (vsub2 x1 x2)))
      (sdiv2 (vsub2 x1 x2) (norm2 (vsub2 x1 x2))) = 1 := by
    have hsq : (vsub2 x1 x2).1 ^ 2 + (vsub2 x1 x2).2 ^ 2
        = norm2 (vsub2 x1 x2) ^ 2 := (Real.sq_sqrt (by positivity)).symm
    simp only [dot2, sdiv2]
    field_simp
    linear_combination hsq
  simp only [compute_collision, if_pos hc, if_neg (not_lt.mpr hvn)]
  simp only [vadd2, vsub2, sdiv2, smul2, dot2] at hnn ⊢
  rw [resolve_dot _ _ _ _ _ _ _ _ _ hm1' hm2']
  rw [hnn, mul_one, div_mul_cancel₀ _ hsum]
  ring

/-- Claim C5 witness: the touching head-on configuration of C4 with
restitution 0 has zero post-impact normal relative velocity. -/
theorem collision_inelastic_normal_rel_velocity_zero_witness :
    dot2
      (vsub2 (compute_collision (0, 0) (4 / 5, 0) (2, 0) (-1, 0) 1 1 (2 / 5) (2 / 5) 0).1
             (compute_collision (0, 0) (4 / 5, 0) (2, 0) (-1, 0) 1 1 (2 / 5) (2 / 5) 0).2.1)
      (sdiv2 (vsub2 (0, 0) (4 / 5, 0)) (norm2 (vsub2 (0, 0) (4 / 5, 0)))) = 0 := by
  have hd : norm2 (vsub2 ((0 : ℝ), (0 : ℝ)) (4 / 5, 0)) = 4 / 5 := by
    rw [norm2, show (vsub2 ((0 : ℝ), (0 : ℝ)) (4 / 5, 0)).1 ^ 2
        + (vsub2 ((0 : ℝ), (0 : ℝ)) (4 / 5, 0)).2 ^ 2 = (4 / 5) ^ 2 by
      norm_num [vsub2]]
    exact Real.sqrt_sq (by norm_num)
  exact collision_inelastic_normal_rel_velocity_zero (0, 0) (4 / 5, 0) (2, 0)
    (-1, 0) 1 1 (2 / 5) (2 / 5) (by rw [hd]; norm_num) (by rw [hd]; norm_num)
    (by rw [hd]; simp [vsub2, sdiv2, dot2]; norm_num) (by norm_num) (by norm_num)

/-- Claim C6: the resolver returns the input velocities unchanged together
with `collided = false` in exactly two cases: no contact
(`|p1 - p2| > r1 + r2`), or contact with the particles separating
(`vn = dot(v1 - v2, n) > 0`); and whenever `collided = false` the output
velocities equal the inputs. -/
theorem collision_unchanged_iff_no_contact_or_separating
    (x1 x2 v1 v2 : ℝ × ℝ) (m1 m2 r1 r2 e : ℝ) :
    (((compute_collision x1 x2 v1 v2 m1 m2 r1 r2 e).1 = v1 ∧
      (compute_collision x1 x2 v1 v2 m1 m2 r1 r2 e).2.1 = v2 ∧
      (compute_collision x1 x2 v1 v2 m1 m2 r1 r2 e).2.2 = false) ↔
     (r1 + r2 < norm2 (vsub2 x1 x2) ∨
      (norm2 (vsub2 x1 x2) ≤ r1 + r2 ∧
       0 < dot2 (vsub2 v1 v2)
             (sdiv2 (vsub2 x1 x2) (norm2 (vsub2 x1 x2)))))) ∧
    ((compute_collision x1 x2 v1 v2 m1 m2 r1 r2 e).2.2 = false →
      (compute_collision x1 x2 v1 v2 m1 m2 r1 r2 e).1 = v1 ∧
      (compute_collision x1 x2 v1 v2 m1 m2 r1 r2 e).2.1 = v2) := by
  simp only [compute_collision]
  split_ifs with h1 h2
  · have hR : r1 + r2 < norm2 (vsub2 x1 x2) ∨
        (norm2 (vsub2 x1 x2) ≤ r1 + r2 ∧
         0 < dot2 (vsub2 v1 v2)
               (sdiv2 (vsub2 x1 x2) (norm2 (vsub2 x1 x2)))) := Or.inr ⟨h1, h2⟩
    simp [hR]
  · have hR : ¬(r1 + r2 < norm2 (vsub2 x1 x2) ∨
        (norm2 (vsub2 x1 x2) ≤ r1 + r2 ∧
         0 < dot2 (vsub2 v1 v2)
               (sdiv2 (vsub2 x1 x2) (norm2 (vsub2 x1 x2))))) := by
      push_neg
      exact ⟨h1, fun _ => not_lt.mp h2⟩
    simp [hR]
  · have hR : r1 + r2 < norm2 (vsub2 x1 x2) ∨
        (norm2 (vsub2 x1 x2) ≤ r1 + r2 ∧
         0 < dot2 (vsub2 v1 v2)
               (sdiv2 (vsub2 x1 x2) (norm2 (vsub2 x1 x2)))) :=
      Or.inl (not_le.mp h1)
    simp [hR]

/-! ## Triangular Life (`life.py`). Grids are modelled as total Boolean
    functions on integer coordinates; cells outside `[0, rows) × [0, cols)`
    are dead, exactly as `np.zeros`-backed grids never set them. -/

/-- State of a triangular cell grid, alive = `true`. -/
def TriGrid : Type := ℤ → ℤ → Bool

/-- Embedding of `get_triangle_neighbors(r, c, rows, cols)` (`life.py` lines
6-41): the deduplicated set of in-bounds edge and vertex neighbours.  The
Python function accumulates into a `set`; the result is modelled as the
`Finset` of the filtered offset list. -/
def get_triangle_neighbors (r c rows cols : ℤ) : Finset (ℤ × ℤ) :=
  let edge_offsets : List (ℤ × ℤ) :=
    if (r + c) % 2 = 0 then
      [(r, c - 1), (r, c + 1), (r + 1, c)]
    else
      [(r, c - 1), (r, c + 1), (r - 1, c)]
  let vertex_offsets : List (ℤ × ℤ) :=
    [(r - 1, c - 1), (r - 1, c), (r - 1, c + 1),
     (r, c - 2), (r, c + 2),
     (r + 1, c - 1), (r + 1, c), (r + 1, c + 1),
     (r + 2, c)]
  ((edge_offsets ++ vertex_offsets).filter
    (fun p => 0 ≤ p.1 ∧ p.1 < rows ∧ 0 ≤ p.2 ∧ p.2 < cols)).toFinset

/-- Embedding of `apply_triangular_rules(grid, birth_cond, survive_cond)`
(`life.py` lines 44-60) on a `rows × cols` grid: each in-bounds cell counts
its alive neighbours and lives in the new grid iff the count is in
`survive_cond` (when alive) or in `birth_cond` (when dead); all other cells
of the fresh `np.zeros_like` grid stay dead. -/
def apply_triangular_rules (rows cols : ℤ) (grid : TriGrid)
    (birth_cond survive_cond : Finset ℕ) : TriGrid :=
  fun r c =>
    if 0 ≤ r ∧ r < rows ∧ 0 ≤ c ∧ c < cols then
      let neighbor_count :=
        ((get_triangle_neighbors r c rows cols).filter
          (fun p => grid p.1 p.2 = true)).card
      if grid r c then decide (neighbor_count ∈ survive_cond)
      else decide (neighbor_count ∈ birth_cond)
    else false

/-- History stack of the branching automaton (`life.py`, `run`): the list of
committed grids (`st.session_state.tri_history`) and the cursor
(`st.session_state.tri_step`). -/
structure HistoryStack where
  history : List TriGrid
  cursor : ℕ

/-- The everywhere-dead grid, used as the out-of-range default when reading
the history list. -/
def deadGrid : TriGrid := fun _ _ => false

/-- The grid the automaton currently displays:
`tri_history[tri_step]` (`life.py` line 140). -/
def currentGrid (s : HistoryStack) : TriGrid := s.history.getD s.cursor deadGrid

/-- Forward transition (`life.py` lines 125-131): compute the next
generation of the current grid with the current rules, append it, and
increment the cursor. -/
def lifeForward (rows cols : ℤ) (birth survive : Finset ℕ)
    (s : HistoryStack) : HistoryStack :=
  { history := s.history ++
      [apply_triangular_rules rows cols (currentGrid s) birth survive],
    cursor := s.cursor + 1 }

/-- Back transition (`life.py` lines 117-120): if the cursor is positive,
decrement it and truncate the history to the first `cursor + 1` entries
(`tri_history[:tri_step + 1]` after the decrement); otherwise do nothing. -/
def lifeBack (s : HistoryStack) : HistoryStack :=
  if 0 < s.cursor then
    { history := s.history.take s.cursor, cursor := s.cursor - 1 }
  else s

/-- Claim C7: from any history-stack state whose cursor addresses the last
stored grid, doing Forward with one rule set, then Back, then Forward with a
different rule set, leaves a final grid equal to applying only the new rule
set to the grid at the reverted cursor; the Back transition deletes the
discarded branch entirely (the stack returns to the original state), so the
branch has no residual effect. -/
theorem history_branch_no_residual
    (s : HistoryStack) (rows cols : ℤ) (bOld sOld bNew sNew : Finset ℕ)
    (hs : s.cursor + 1 = s.history.length) :
    lifeBack (lifeForward rows cols bOld sOld s) = s ∧
    currentGrid (lifeForward rows cols bNew sNew
        (lifeBack (lifeForward rows cols bOld sOld s))) =
      apply_triangular_rules rows cols
        (currentGrid (lifeBack (lifeForward rows cols bOld sOld s)))
        bNew sNew := by
  obtain ⟨hist, cur⟩ := s
  simp only at hs
  have hback : lifeBack (lifeForward rows cols bOld sOld ⟨hist, cur⟩) =
      (⟨hist, cur⟩ : HistoryStack) := by
    simp only [lifeBack, lifeForward, Nat.succ_pos, if_pos, Nat.add_sub_cancel]
    rw [hs, List.take_left]
  refine ⟨hback, ?_⟩
  rw [hback]
  simp only [currentGrid, lifeForward]
  rw [List.getD_append_right _ _ _ _ (by omega)]
  simp [hs]

/-- Claim C7 witness: the branch-and-recompute identity on a concrete
one-entry stack with two different rule sets. -/
theorem history_branch_no_residual_witness :
    lifeBack (lifeForward 1 1 ∅ ∅ ⟨[deadGrid], 0⟩) =
      (⟨[deadGrid], 0⟩ : HistoryStack) ∧
    currentGrid (lifeForward 1 1 {1} {2}
        (lifeBack (lifeForward 1 1 ∅ ∅ ⟨[deadGrid], 0⟩))) =
      apply_triangular_rules 1 1
        (currentGrid (lifeBack (lifeForward 1 1 ∅ ∅ ⟨[deadGrid], 0⟩)))
        {1} {2} :=
  history_branch_no_residual ⟨[deadGrid], 0⟩ 1 1 ∅ ∅ {1} {2} rfl

/-- Claim C10: the history stack keeps the invariant
`cursor = length(history) - 1` (equivalently `cursor + 1 = length`):
initialisation/reset produces a one-element history with cursor 0, Forward
appends one grid and increments the cursor, and Back decrements the cursor
and truncates the history to `cursor + 1` entries, so the cursor always
addresses the last stored grid. -/
theorem history_cursor_invariant
    (rows cols : ℤ) (birth survive : Finset ℕ) (g : TriGrid)
    (s : HistoryStack) (h : s.cursor + 1 = s.history.length) :
    (HistoryStack.mk [g] 0).cursor + 1 = (HistoryStack.mk [g] 0).history.length ∧
    (lifeForward rows cols birth survive s).cursor + 1 =
      (lifeForward rows cols birth survive s).history.length ∧
    (lifeBack s).cursor + 1 = (lifeBack s).history.length := by
  refine ⟨rfl, ?_, ?_⟩
  · simp only [lifeForward, List.length_append, List.length_singleton]
    omega
  · by_cases hc : 0 < s.cursor
    · simp only [lifeBack, if_pos hc, List.length_take]
      omega
    · simp only [lifeBack, if_neg hc]
      exact h

/-- Claim C10 witness: the invariant is kept by Forward and Back on a
concrete two-entry stack with cursor 1. -/
theorem history_cursor_invariant_witness :
    (HistoryStack.mk [deadGrid] 0).cursor + 1 =
      (HistoryStack.mk [deadGrid] 0).history.length ∧
    (lifeForward 1 1 ∅ ∅ ⟨[deadGrid, deadGrid], 1⟩).cursor + 1 =
      (lifeForward 1 1 ∅ ∅ ⟨[deadGrid, deadGrid], 1⟩).history.length ∧
    (lifeBack ⟨[deadGrid, deadGrid], 1⟩).cursor + 1 =
      (lifeBack ⟨[deadGrid, deadGrid], 1⟩).history.length :=
  history_cursor_invariant 1 1 ∅ ∅ deadGrid ⟨[deadGrid, deadGrid], 1⟩ rfl

/-- Candidate neighbour positions: the two same-row edge offsets together
with the nine vertex offsets.  For either triangle orientation the third
edge offset (`(r+1, c)` for upward, `(r-1, c)` for downward cells) is
already in the vertex-offset table, so every offset the code considers is
one of these eleven. -/
def candidateNeighbors (r c : ℤ) : List (ℤ × ℤ) :=
  [(r, c - 1), (r, c + 1),
   (r - 1, c - 1), (r - 1, c), (r - 1, c + 1),
   (r, c - 2), (r, c + 2),
   (r + 1, c - 1), (r + 1, c), (r + 1, c + 1),
   (r + 2, c)]

/-- Every neighbour the code returns is one of the eleven candidates. -/
theorem neighbors_subset_candidates (r c rows cols : ℤ) :
    get_triangle_neighbors r c rows cols ⊆ (candidateNeighbors r c).toFinset := by
  intro p hp
  by_cases hpar : (r + c) % 2 = 0 <;>
    · simp only [get_triangle_neighbors, hpar, if_true, if_false,
        List.mem_toFinset, List.mem_filter, List.mem_append, List.mem_cons,
        List.not_mem_nil, or_false, reduceIte] at hp
      simp only [candidateNeighbors, List.mem_toFinset, List.mem_cons,
        List.not_mem_nil, or_false]
      tauto

/-- The deduplicated neighbour set of any cell has at most 11 elements. -/
theorem neighbors_card_le_eleven (r c rows cols : ℤ) :
    (get_triangle_neighbors r c rows cols).card ≤ 11 :=
  (Finset.card_le_card (neighbors_subset_candidates r c rows cols)).trans
    ((List.toFinset_card_le _).trans (by simp [candidateNeighbors]))

/-- Claim C8 counterexample: the claim asserts that on a sufficiently large
grid some interior cell attains exactly 13 neighbours.  On the 8×8 grid —
large enough to contain cells with every offset in bounds — every cell's
deduplicated neighbour set has at most 11 entries, so no cell attains 13:
the code's vertex-offset table repeats one edge offset, capping the
deduplicated count at 11. -/
theorem max_neighbor_not_thirteen :
    ((List.range 8).all fun r =>
      (List.range 8).all fun c =>
        decide ((get_triangle_neighbors (r : ℤ) (c : ℤ) 8 8).card ≠ 13)) = true := by
  decide

/-- Claim C8, amended: the deduplicated neighbour list of a triangular cell
always has at most 11 entries (not 13): the offset table holds 3 edge plus
9 vertex candidates and one edge offset is duplicated among the vertex
offsets, so neighbour counts range over `{0..11}`; the maximum 11 is
attained, e.g. by the interior cell `(2,2)` of a 5×5 grid. -/
theorem neighbor_count_max_eleven :
    (∀ r c rows cols : ℤ, (get_triangle_neighbors r c rows cols).card ≤ 11) ∧
    (get_triangle_neighbors 2 2 5 5).card = 11 :=
  ⟨fun r c rows cols => neighbors_card_le_eleven r c rows cols, by decide⟩

end PSM
